import Mathlib

/-!
Verification of the `mmath` quaternion header (`include/mmath/Quaternion.h`)
against its specification.  The C++ template `Quaternion<T>` is embedded over
the exact reals: each member function of the header becomes a Lean definition
translated line by line from the source.  The collaborator types `Vector3<T>`
(from `Vector3.h`) and the scalar `clamp` utility (from `util.h`) are not part
of the given sources and are modelled from the specification text.
-/

namespace Mmath

/-- Modelled from the spec: the scalar utility `clamp(value, lo, hi)` of
`util.h` (not among the given sources).  The spec states standard semantics:
return `lo` if `value < lo`, `hi` if `value > hi`, else `value`. -/
noncomputable def clamp (value lo hi : ℝ) : ℝ :=
  if value < lo then lo else if hi < value then hi else value

/-- Modelled from the spec: the collaborator type `Vector3<T>` of `Vector3.h`
(not among the given sources), a plain 3-component numeric tuple with fields
`x, y, z`, constructible from three scalars. -/
@[ext]
structure Vector3 where
  x : ℝ
  y : ℝ
  z : ℝ

/-- The C library function `atan2(y, x)`, used by `ToEulerXYZ`: the argument
of the complex number `x + y*i`, an angle in `(-π, π]` whose sine and cosine
are proportional to `y` and `x`.  (`atan2(0, 0) = 0`, matching libm.) -/
noncomputable def atan2 (y x : ℝ) : ℝ :=
  Complex.arg ((x : ℂ) + (y : ℂ) * Complex.I)

/-- `mmath::Quaternion<T>` (Quaternion.h, lines 39–59): four scalar fields
`w, x, y, z`. -/
@[ext]
structure Quaternion where
  w : ℝ
  x : ℝ
  y : ℝ
  z : ℝ

namespace Quaternion

/-- Default constructor `Quaternion()` (lines 68–69): identity `(1,0,0,0)`. -/
noncomputable def default : Quaternion := ⟨1, 0, 0, 0⟩

/-- Axis–angle constructor `Quaternion(axis, angle)` (lines 79–84). -/
noncomputable def ofAxisAngle (axis : Vector3) (angle : ℝ) : Quaternion :=
  { w := Real.cos (angle / 2)
    x := axis.x * Real.sin (angle / 2)
    y := axis.y * Real.sin (angle / 2)
    z := axis.z * Real.sin (angle / 2) }

/-- Hamilton product `operator*` (lines 165–174). -/
noncomputable def mul (q1 q2 : Quaternion) : Quaternion :=
  { w := q1.w * q2.w - q1.x * q2.x - q1.y * q2.y - q1.z * q2.z
    x := q1.x * q2.w + q1.w * q2.x + q1.y * q2.z - q1.z * q2.y
    y := q1.w * q2.y - q1.x * q2.z + q1.y * q2.w + q1.z * q2.x
    z := q1.w * q2.z + q1.x * q2.y - q1.y * q2.x + q1.z * q2.w }

/-- Scalar division `operator/` (lines 176–179): componentwise division. -/
noncomputable def div (q : Quaternion) (scalar : ℝ) : Quaternion :=
  ⟨q.w / scalar, q.x / scalar, q.y / scalar, q.z / scalar⟩

/-- `Quaternion<T>::Dot` (lines 148–152): the sum of the four components of
the Hamilton product `(*this) * q`. -/
noncomputable def Dot (q1 q : Quaternion) : ℝ :=
  let qt := mul q1 q
  qt.w + qt.x + qt.y + qt.z

/-- `Quaternion<T>::Angle` (lines 154–157):
`acos(abs(clamp(Dot(q), -1.0, 1.0))) * 2.0`. -/
noncomputable def Angle (q1 q : Quaternion) : ℝ :=
  Real.arccos |clamp (Dot q1 q) (-1) 1| * 2

/-- `Quaternion<T>::norm` (lines 159–163): Euclidean 4-norm. -/
noncomputable def norm (q : Quaternion) : ℝ :=
  Real.sqrt (q.w * q.w + q.x * q.x + q.y * q.y + q.z * q.z)

/-- `Quaternion<T>::ToEulerXYZ` (lines 91–130), translated statement by
statement: the local matrix entries, `ey = asin(clamp(m13, -1, 1))`, and the
branch on `abs(m13) < 0.9999999`. -/
noncomputable def ToEulerXYZ (q : Quaternion) : Vector3 :=
  let x2 := q.x + q.x
  let y2 := q.y + q.y
  let z2 := q.z + q.z
  let xx := q.x * x2
  let xy := q.x * y2
  let xz := q.x * z2
  let yy := q.y * y2
  let yz := q.y * z2
  let zz := q.z * z2
  let wx := q.w * x2
  let wy := q.w * y2
  let wz := q.w * z2
  let sx : ℝ := 1
  let sy : ℝ := 1
  let sz : ℝ := 1
  let m11 := (1 - (yy + zz)) * sx
  let m12 := (xy - wz) * sy
  let m13 := (xz + wy) * sz
  let m22 := (1 - (xx + zz)) * sy
  let m23 := (yz - wx) * sz
  let m32 := (yz + wx) * sy
  let m33 := (1 - (xx + yy)) * sz
  let ey := Real.arcsin (clamp m13 (-1) 1)
  if |m13| < 0.9999999 then
    ⟨atan2 (-m23) m33, ey, atan2 (-m12) m11⟩
  else
    ⟨atan2 m32 m22, ey, 0⟩

/-- `Quaternion<T>::FromEulerXYZ` (lines 132–146): the four fields produced
from the half-angle sine/cosine products of the Euler triple `e`. -/
noncomputable def FromEulerXYZ (e : Vector3) : Quaternion :=
  let c1 := Real.cos (e.x / 2)
  let c2 := Real.cos (e.y / 2)
  let c3 := Real.cos (e.z / 2)
  let s1 := Real.sin (e.x / 2)
  let s2 := Real.sin (e.y / 2)
  let s3 := Real.sin (e.z / 2)
  { x := s1 * c2 * c3 + c1 * s2 * s3
    y := c1 * s2 * c3 - s1 * c2 * s3
    z := c1 * c2 * s3 + s1 * s2 * c3
    w := c1 * c2 * c3 - s1 * s2 * s3 }

/-- State-passing form of `ToEulerXYZ` (lines 91–130).  The method body reads
the receiver fields and writes only block locals, never `this`, so the final
receiver state equals the initial one. -/
noncomputable def ToEulerXYZRun (self : Quaternion) : Vector3 × Quaternion :=
  (ToEulerXYZ self, self)

/-- State-passing form of `FromEulerXYZ` (lines 132–146).  The body assigns
all four receiver fields from `e` alone, so the final state does not depend on
the initial receiver. -/
noncomputable def FromEulerXYZRun (self : Quaternion) (e : Vector3) :
    Unit × Quaternion :=
  ((), FromEulerXYZ e)

/-- State-passing form of `Dot` (lines 148–152): the body only reads the
receiver (into the local `qt`), never writes it. -/
noncomputable def DotRun (self q : Quaternion) : ℝ × Quaternion :=
  (Dot self q, self)

/-- State-passing form of `Angle` (lines 154–157): the body only calls `Dot`
and pure scalar functions, never writes the receiver. -/
noncomputable def AngleRun (self q : Quaternion) : ℝ × Quaternion :=
  (Angle self q, self)

/-- State-passing form of `norm` (lines 159–163): the body only reads the
receiver fields. -/
noncomputable def normRun (self : Quaternion) : ℝ × Quaternion :=
  (norm self, self)

/-- State-passing form of `operator*` (lines 165–174): both operands are
taken by const reference and only read; the result is a fresh value. -/
noncomputable def mulRun (q1 q2 : Quaternion) :
    Quaternion × (Quaternion × Quaternion) :=
  (mul q1 q2, (q1, q2))

/-- State-passing form of `operator/` (lines 176–179): the operands are taken
by const reference and only read. -/
noncomputable def divRun (q : Quaternion) (scalar : ℝ) :
    Quaternion × (Quaternion × ℝ) :=
  (div q scalar, (q, scalar))

end Quaternion

/-! ## Helper lemmas -/

/-- The matrix entries computed by `ToEulerXYZ` through doubled components
(`x2 = x + x`, `xz = x * z2`, unit scale factors) coincide with the standard
quaternion-to-matrix polynomials, so the conversion has this normal form. -/
lemma toEulerXYZ_eq (q : Quaternion) :
    Quaternion.ToEulerXYZ q =
      if |2 * q.x * q.z + 2 * q.w * q.y| < 0.9999999 then
        ⟨atan2 (-(2 * q.y * q.z - 2 * q.w * q.x)) (1 - 2 * q.x ^ 2 - 2 * q.y ^ 2),
         Real.arcsin (clamp (2 * q.x * q.z + 2 * q.w * q.y) (-1) 1),
         atan2 (-(2 * q.x * q.y - 2 * q.w * q.z)) (1 - 2 * q.y ^ 2 - 2 * q.z ^ 2)⟩
      else
        ⟨atan2 (2 * q.y * q.z + 2 * q.w * q.x) (1 - 2 * q.x ^ 2 - 2 * q.z ^ 2),
         Real.arcsin (clamp (2 * q.x * q.z + 2 * q.w * q.y) (-1) 1), 0⟩ := by
  simp only [Quaternion.ToEulerXYZ]
  have h13 : (q.x * (q.z + q.z) + q.w * (q.y + q.y)) * 1
      = 2 * q.x * q.z + 2 * q.w * q.y := by ring
  have h23 : (q.y * (q.z + q.z) - q.w * (q.x + q.x)) * 1
      = 2 * q.y * q.z - 2 * q.w * q.x := by ring
  have h33 : (1 - (q.x * (q.x + q.x) + q.y * (q.y + q.y))) * 1
      = 1 - 2 * q.x ^ 2 - 2 * q.y ^ 2 := by ring
  have h12 : (q.x * (q.y + q.y) - q.w * (q.z + q.z)) * 1
      = 2 * q.x * q.y - 2 * q.w * q.z := by ring
  have h11 : (1 - (q.y * (q.y + q.y) + q.z * (q.z + q.z))) * 1
      = 1 - 2 * q.y ^ 2 - 2 * q.z ^ 2 := by ring
  have h32 : (q.y * (q.z + q.z) + q.w * (q.x + q.x)) * 1
      = 2 * q.y * q.z + 2 * q.w * q.x := by ring
  have h22 : (1 - (q.x * (q.x + q.x) + q.z * (q.z + q.z))) * 1
      = 1 - 2 * q.x ^ 2 - 2 * q.z ^ 2 := by ring
  rw [h13, h23, h33, h12, h11, h32, h22]

lemma atan2_zero_one : atan2 0 1 = 0 := by
  have h : ((1 : ℝ) : ℂ) + ((0 : ℝ) : ℂ) * Complex.I = 1 := by
    push_cast
    ring
  rw [atan2, h, Complex.arg_one]

/-- Positive scaling invariance of `atan2` on a point of the unit circle. -/
lemma atan2_mul_cos_sin {k θ : ℝ} (hk : 0 < k) (h1 : -Real.pi < θ)
    (h2 : θ ≤ Real.pi) :
    atan2 (k * Real.sin θ) (k * Real.cos θ) = θ := by
  have h : ((k * Real.cos θ : ℝ) : ℂ) + ((k * Real.sin θ : ℝ) : ℂ) * Complex.I
      = (k : ℂ) * ((Real.cos θ : ℝ) + ((Real.sin θ : ℝ) : ℂ) * Complex.I) := by
    push_cast
    ring
  rw [atan2, h, Complex.arg_real_mul _ hk, Complex.ofReal_cos,
    Complex.ofReal_sin, Complex.arg_cos_add_sin_mul_I ⟨h1, h2⟩]

lemma clamp_of_mem {v lo hi : ℝ} (h1 : lo ≤ v) (h2 : v ≤ hi) :
    clamp v lo hi = v := by
  rw [clamp, if_neg (not_lt.mpr h1), if_neg (not_lt.mpr h2)]

lemma clamp_sin (t : ℝ) : clamp (Real.sin t) (-1) 1 = Real.sin t :=
  clamp_of_mem (Real.neg_one_le_sin t) (Real.sin_le_one t)

/-- A real quaternion `(w, 0, 0, 0)` converts to the zero Euler triple. -/
lemma toEulerXYZ_real_quat (w : ℝ) :
    Quaternion.ToEulerXYZ ⟨w, 0, 0, 0⟩ = ⟨0, 0, 0⟩ := by
  rw [toEulerXYZ_eq]
  norm_num [atan2_zero_one, clamp_of_mem, Real.arcsin_zero]

lemma sin_eq_two_mul_half (t : ℝ) :
    Real.sin t = 2 * Real.sin (t / 2) * Real.cos (t / 2) := by
  have h := Real.sin_two_mul (t / 2)
  rw [show 2 * (t / 2) = t by ring] at h
  exact h

lemma cos_eq_two_mul_half (t : ℝ) :
    Real.cos t = 2 * Real.cos (t / 2) ^ 2 - 1 := by
  have h := Real.cos_two_mul (t / 2)
  rw [show 2 * (t / 2) = t by ring] at h
  exact h

/-- Angles of magnitude at most `1.466` radians (just under 84 degrees) have
cosine above `0.1`. -/
lemma cos_lb_of_abs_le {t : ℝ} (ht : |t| ≤ 1.466) : 0.1 < Real.cos t := by
  have hpi : (3.141592 : ℝ) < Real.pi := Real.pi_gt_d6
  have hpi2 : Real.pi < 3.141593 := Real.pi_lt_d6
  have h1 : Real.cos (1.466 : ℝ) ≤ Real.cos |t| :=
    Real.cos_le_cos_of_nonneg_of_le_pi (abs_nonneg t) (by linarith) ht
  rw [Real.cos_abs] at h1
  have h2 : (0.1 : ℝ) < Real.cos 1.466 := by
    have hs : Real.cos (1.466 : ℝ) = Real.sin (Real.pi / 2 - 1.466) :=
      (Real.sin_pi_div_two_sub 1.466).symm
    have hu1 : (0.104796 : ℝ) < Real.pi / 2 - 1.466 := by linarith
    have hu2 : Real.pi / 2 - 1.466 < 0.1048 := by linarith
    have h0 : (0 : ℝ) < Real.pi / 2 - 1.466 := by linarith
    have hcube := Real.sin_gt_sub_cube h0 (by linarith)
    have hcub : (Real.pi / 2 - 1.466) ^ 3 < 0.0012 := by
      nlinarith [h0, hu2, mul_pos h0 h0]
    rw [hs]
    linarith [hcube]
  linarith

/-- Entry `m13` of the matrix built from `FromEulerXYZ e` is `sin ey`. -/
lemma fromEuler_m13 (e : Vector3) :
    2 * (Quaternion.FromEulerXYZ e).x * (Quaternion.FromEulerXYZ e).z
      + 2 * (Quaternion.FromEulerXYZ e).w * (Quaternion.FromEulerXYZ e).y
      = Real.sin e.y := by
  have p1 := Real.sin_sq_add_cos_sq (e.x / 2)
  have p3 := Real.sin_sq_add_cos_sq (e.z / 2)
  simp only [Quaternion.FromEulerXYZ]
  rw [sin_eq_two_mul_half e.y]
  linear_combination
    (2 * Real.sin (e.y / 2) * Real.cos (e.y / 2) *
      (Real.cos (e.z / 2) ^ 2 + Real.sin (e.z / 2) ^ 2)) * p1
    + (2 * Real.sin (e.y / 2) * Real.cos (e.y / 2)) * p3

/-- Entry `-m23` of the matrix built from `FromEulerXYZ e` is
`cos ey * sin ex`. -/
lemma fromEuler_m23 (e : Vector3) :
    -(2 * (Quaternion.FromEulerXYZ e).y * (Quaternion.FromEulerXYZ e).z
      - 2 * (Quaternion.FromEulerXYZ e).w * (Quaternion.FromEulerXYZ e).x)
      = Real.cos e.y * Real.sin e.x := by
  have p2 := Real.sin_sq_add_cos_sq (e.y / 2)
  have p3 := Real.sin_sq_add_cos_sq (e.z / 2)
  simp only [Quaternion.FromEulerXYZ]
  rw [cos_eq_two_mul_half e.y, sin_eq_two_mul_half e.x]
  linear_combination
    (2 * Real.sin (e.x / 2) * Real.cos (e.x / 2) *
      (Real.cos (e.y / 2) ^ 2 - Real.sin (e.y / 2) ^ 2)) * p3
    - (2 * Real.sin (e.x / 2) * Real.cos (e.x / 2)) * p2

/-- Entry `m33` of the matrix built from `FromEulerXYZ e` is
`cos ey * cos ex`. -/
lemma fromEuler_m33 (e : Vector3) :
    1 - 2 * (Quaternion.FromEulerXYZ e).x ^ 2
      - 2 * (Quaternion.FromEulerXYZ e).y ^ 2
      = Real.cos e.y * Real.cos e.x := by
  have p1 := Real.sin_sq_add_cos_sq (e.x / 2)
  have p2 := Real.sin_sq_add_cos_sq (e.y / 2)
  have p3 := Real.sin_sq_add_cos_sq (e.z / 2)
  simp only [Quaternion.FromEulerXYZ]
  rw [cos_eq_two_mul_half e.y, cos_eq_two_mul_half e.x]
  linear_combination
    (-2 * (Real.sin (e.x / 2) ^ 2 * Real.cos (e.y / 2) ^ 2
      + Real.cos (e.x / 2) ^ 2 * Real.sin (e.y / 2) ^ 2)) * p3
    + (-2 * Real.cos (e.y / 2) ^ 2) * p1
    + (-2 * Real.cos (e.x / 2) ^ 2) * p2

/-- Entry `-m12` of the matrix built from `FromEulerXYZ e` is
`cos ey * sin ez`. -/
lemma fromEuler_m12 (e : Vector3) :
    -(2 * (Quaternion.FromEulerXYZ e).x * (Quaternion.FromEulerXYZ e).y
      - 2 * (Quaternion.FromEulerXYZ e).w * (Quaternion.FromEulerXYZ e).z)
      = Real.cos e.y * Real.sin e.z := by
  have p1 := Real.sin_sq_add_cos_sq (e.x / 2)
  have p2 := Real.sin_sq_add_cos_sq (e.y / 2)
  simp only [Quaternion.FromEulerXYZ]
  rw [cos_eq_two_mul_half e.y, sin_eq_two_mul_half e.z]
  linear_combination
    (2 * Real.sin (e.z / 2) * Real.cos (e.z / 2) *
      (Real.cos (e.y / 2) ^ 2 - Real.sin (e.y / 2) ^ 2)) * p1
    - (2 * Real.sin (e.z / 2) * Real.cos (e.z / 2)) * p2

/-- Entry `m11` of the matrix built from `FromEulerXYZ e` is
`cos ey * cos ez`. -/
lemma fromEuler_m11 (e : Vector3) :
    1 - 2 * (Quaternion.FromEulerXYZ e).y ^ 2
      - 2 * (Quaternion.FromEulerXYZ e).z ^ 2
      = Real.cos e.y * Real.cos e.z := by
  have p1 := Real.sin_sq_add_cos_sq (e.x / 2)
  have p2 := Real.sin_sq_add_cos_sq (e.y / 2)
  have p3 := Real.sin_sq_add_cos_sq (e.z / 2)
  simp only [Quaternion.FromEulerXYZ]
  rw [cos_eq_two_mul_half e.y, cos_eq_two_mul_half e.z]
  linear_combination
    (-2 * (Real.sin (e.z / 2) ^ 2 * Real.cos (e.y / 2) ^ 2
      + Real.cos (e.z / 2) ^ 2 * Real.sin (e.y / 2) ^ 2)) * p1
    + (-2 * Real.cos (e.y / 2) ^ 2) * p3
    + (-2 * Real.cos (e.z / 2) ^ 2) * p2

/-- Exact round trip: for Euler angles with first and third component in the
principal range `(-π, π]` and second component at most `1.466` radians in
magnitude, `ToEulerXYZ` inverts `FromEulerXYZ` exactly. -/
lemma roundtrip_eq (e : Vector3) (hx1 : -Real.pi < e.x) (hx2 : e.x ≤ Real.pi)
    (hy : |e.y| ≤ 1.466) (hz1 : -Real.pi < e.z) (hz2 : e.z ≤ Real.pi) :
    Quaternion.ToEulerXYZ (Quaternion.FromEulerXYZ e) = e := by
  have hpi : (3.141592 : ℝ) < Real.pi := Real.pi_gt_d6
  have hyabs := abs_le.mp hy
  have hcosy : 0 < Real.cos e.y := by linarith [cos_lb_of_abs_le hy]
  have hbranch : |Real.sin e.y| < 0.9999999 := by
    have hc := cos_lb_of_abs_le hy
    have hp := Real.sin_sq_add_cos_sq e.y
    rw [abs_lt]
    constructor <;> nlinarith [hc, hp]
  rw [toEulerXYZ_eq, fromEuler_m13, fromEuler_m23, fromEuler_m33,
    fromEuler_m12, fromEuler_m11, if_pos hbranch, clamp_sin,
    Real.arcsin_sin (by linarith) (by linarith),
    atan2_mul_cos_sin hcosy hx1 hx2, atan2_mul_cos_sin hcosy hz1 hz2]

/-! ## Claim theorems -/

/-- C1 (counterexample): the unit quaternion `q = (3/5, 4/5, 0, 0)` has
`q.Angle(q) ≠ 0`, refuting the claim that `q.Angle(q) = 0` for every unit
quaternion: here `Dot(q, q) = 17/25`, which survives the clamp, and
`acos(17/25) * 2 > 0`. -/
theorem angle_self_unit_counterexample :
    ((3 / 5 : ℝ) ^ 2 + (4 / 5 : ℝ) ^ 2 + (0 : ℝ) ^ 2 + (0 : ℝ) ^ 2 = 1) ∧
    Quaternion.Angle ⟨3 / 5, 4 / 5, 0, 0⟩ ⟨3 / 5, 4 / 5, 0, 0⟩ ≠ 0 := by
  constructor
  · norm_num
  · have hdot : Quaternion.Dot ⟨3 / 5, 4 / 5, 0, 0⟩ ⟨3 / 5, 4 / 5, 0, 0⟩
        = 17 / 25 := by
      simp only [Quaternion.Dot, Quaternion.mul]
      norm_num
    have hclamp : clamp (17 / 25 : ℝ) (-1) 1 = 17 / 25 :=
      clamp_of_mem (by norm_num) (by norm_num)
    rw [Quaternion.Angle, hdot, hclamp,
      abs_of_nonneg (by norm_num : (0 : ℝ) ≤ 17 / 25)]
    have harc : (0 : ℝ) < Real.arccos (17 / 25) :=
      Real.arccos_pos.mpr (by norm_num)
    exact (mul_pos harc (by norm_num)).ne'

/-- C1 (amended): for a unit quaternion `q`, `q.Angle(q) = 0` holds whenever
the self-Dot has magnitude at least one (so that the clamp produces `±1` and
`acos(1) * 2 = 0`); by the counterexample this extra hypothesis is needed. -/
theorem angle_self_unit (q : Quaternion)
    (hu : q.w ^ 2 + q.x ^ 2 + q.y ^ 2 + q.z ^ 2 = 1)
    (hd : 1 ≤ |Quaternion.Dot q q|) : Quaternion.Angle q q = 0 := by
  have h : |clamp (Quaternion.Dot q q) (-1) 1| = 1 := by
    rw [clamp]
    rcases le_abs.mp hd with h1 | h1
    · split_ifs with ha hb
      · linarith
      · simp
      · rw [le_antisymm (not_lt.mp hb) h1]
        simp
    · split_ifs with ha hb
      · simp
      · linarith
      · rw [show Quaternion.Dot q q = -1 from
          le_antisymm (by linarith) (not_lt.mp ha)]
        simp
  rw [Quaternion.Angle, h, Real.arccos_one, zero_mul]

/-- C1 (witness): the identity quaternion is a unit quaternion whose self-Dot
is `1`, and its self-angle is `0`. -/
theorem angle_self_unit_witness :
    ((1 : ℝ) ^ 2 + (0 : ℝ) ^ 2 + (0 : ℝ) ^ 2 + (0 : ℝ) ^ 2 = 1) ∧
    (1 ≤ |Quaternion.Dot ⟨1, 0, 0, 0⟩ ⟨1, 0, 0, 0⟩|) ∧
    Quaternion.Angle ⟨1, 0, 0, 0⟩ ⟨1, 0, 0, 0⟩ = 0 := by
  have hu : ((1 : ℝ) ^ 2 + (0 : ℝ) ^ 2 + (0 : ℝ) ^ 2 + (0 : ℝ) ^ 2 = 1) := by
    norm_num
  have hd : 1 ≤ |Quaternion.Dot (⟨1, 0, 0, 0⟩ : Quaternion) ⟨1, 0, 0, 0⟩| := by
    simp only [Quaternion.Dot, Quaternion.mul]
    norm_num
  exact ⟨hu, hd, angle_self_unit _ (by norm_num) hd⟩

/-- C2: `Dot` returns the sum of the four components of the Hamilton product,
and there are quaternions where this differs from the Euclidean 4D dot
product of the raw components. -/
theorem dot_is_component_sum_of_product :
    (∀ p q : Quaternion, Quaternion.Dot p q
      = (Quaternion.mul p q).w + (Quaternion.mul p q).x
        + (Quaternion.mul p q).y + (Quaternion.mul p q).z) ∧
    ∃ p q : Quaternion, Quaternion.Dot p q
      ≠ p.w * q.w + p.x * q.x + p.y * q.y + p.z * q.z := by
  refine ⟨fun p q => rfl, ⟨1, 0, 0, 0⟩, ⟨1, 1, 0, 0⟩, ?_⟩
  simp only [Quaternion.Dot, Quaternion.mul]
  norm_num

/-- C3: `ToEulerXYZ` computes the standard matrix entries from the
components, always returns `ey = asin(clamp(m13, -1, 1))`, uses
`ex = atan2(-m23, m33)` and `ez = atan2(-m12, m11)` when
`abs m13 < 0.9999999`, and `ex = atan2(m32, m22)` with `ez = 0` exactly
otherwise. -/
theorem toEulerXYZ_branch_structure (q : Quaternion) :
    Quaternion.ToEulerXYZ q =
      if |2 * q.x * q.z + 2 * q.w * q.y| < 0.9999999 then
        ⟨atan2 (-(2 * q.y * q.z - 2 * q.w * q.x)) (1 - 2 * q.x ^ 2 - 2 * q.y ^ 2),
         Real.arcsin (clamp (2 * q.x * q.z + 2 * q.w * q.y) (-1) 1),
         atan2 (-(2 * q.x * q.y - 2 * q.w * q.z)) (1 - 2 * q.y ^ 2 - 2 * q.z ^ 2)⟩
      else
        ⟨atan2 (2 * q.y * q.z + 2 * q.w * q.x) (1 - 2 * q.x ^ 2 - 2 * q.z ^ 2),
         Real.arcsin (clamp (2 * q.x * q.z + 2 * q.w * q.y) (-1) 1), 0⟩ :=
  toEulerXYZ_eq q

/-- C4 (counterexample): the triple `e = (2π, 0, 0)` has pitch `0` (well
below 84 degrees), yet `FromEulerXYZ(e)` followed by `ToEulerXYZ()` returns
`(0, 0, 0)`, whose first component is `2π` away from `e`, far beyond
`1e-5`: the claim fails without a restriction of `ex` and `ez` to the
principal range. -/
theorem roundtrip_counterexample :
    |(0 : ℝ)| < 1.466 ∧
    ¬ (|(Quaternion.ToEulerXYZ
        (Quaternion.FromEulerXYZ ⟨2 * Real.pi, 0, 0⟩)).x - 2 * Real.pi|
      ≤ 1e-5) := by
  have hpi : (3.141592 : ℝ) < Real.pi := Real.pi_gt_d6
  have hq : Quaternion.FromEulerXYZ ⟨2 * Real.pi, 0, 0⟩ = ⟨-1, 0, 0, 0⟩ := by
    simp only [Quaternion.FromEulerXYZ]
    rw [show 2 * Real.pi / 2 = Real.pi by ring]
    norm_num [Real.cos_pi, Real.sin_pi]
  refine ⟨by norm_num, ?_⟩
  rw [hq, toEulerXYZ_real_quat, not_le,
    show (Vector3.mk (0 : ℝ) 0 0).x = 0 from rfl, zero_sub, abs_neg,
    abs_of_pos (by positivity)]
  nlinarith

/-- C4 (amended): for Euler triples `e` with `|ey| ≤ 1.466` radians (below
the 84-degree bound of the claim) and with `ex` and `ez` in the principal
range `(-π, π]`, the round trip `ToEulerXYZ(FromEulerXYZ(e))` agrees with `e`
componentwise within `1e-5` radians (it is in fact exact). -/
theorem roundtrip_within_tolerance (e : Vector3) (hx1 : -Real.pi < e.x)
    (hx2 : e.x ≤ Real.pi) (hy : |e.y| ≤ 1.466) (hz1 : -Real.pi < e.z)
    (hz2 : e.z ≤ Real.pi) :
    |(Quaternion.ToEulerXYZ (Quaternion.FromEulerXYZ e)).x - e.x| ≤ 1e-5 ∧
    |(Quaternion.ToEulerXYZ (Quaternion.FromEulerXYZ e)).y - e.y| ≤ 1e-5 ∧
    |(Quaternion.ToEulerXYZ (Quaternion.FromEulerXYZ e)).z - e.z| ≤ 1e-5 := by
  rw [roundtrip_eq e hx1 hx2 hy hz1 hz2]
  norm_num

/-- C4 (witness): the zero triple satisfies every hypothesis and round-trips
within the tolerance. -/
theorem roundtrip_within_tolerance_witness :
    (-Real.pi < (0 : ℝ)) ∧ ((0 : ℝ) ≤ Real.pi) ∧ (|(0 : ℝ)| ≤ 1.466) ∧
    (|(Quaternion.ToEulerXYZ (Quaternion.FromEulerXYZ ⟨0, 0, 0⟩)).x - 0|
      ≤ 1e-5) ∧
    (|(Quaternion.ToEulerXYZ (Quaternion.FromEulerXYZ ⟨0, 0, 0⟩)).y - 0|
      ≤ 1e-5) ∧
    (|(Quaternion.ToEulerXYZ (Quaternion.FromEulerXYZ ⟨0, 0, 0⟩)).z - 0|
      ≤ 1e-5) := by
  have h1 : -Real.pi < (0 : ℝ) := neg_lt_zero.mpr Real.pi_pos
  have h2 : (0 : ℝ) ≤ Real.pi := Real.pi_pos.le
  have h3 : |(0 : ℝ)| ≤ (1.466 : ℝ) := by norm_num
  obtain ⟨a, b, c⟩ := roundtrip_within_tolerance ⟨0, 0, 0⟩ h1 h2 h3 h1 h2
  exact ⟨h1, h2, h3, a, b, c⟩

/-- C5: `FromEulerXYZ` overwrites all four fields (regardless of the previous
receiver state) with the half-angle sine/cosine products
`x = s1 c2 c3 + c1 s2 s3`, `y = c1 s2 c3 - s1 c2 s3`,
`z = c1 c2 s3 + s1 s2 c3`, `w = c1 c2 c3 - s1 s2 s3`. -/
theorem fromEulerXYZ_half_angle_products (self : Quaternion) (e : Vector3) :
    (Quaternion.FromEulerXYZRun self e).2 =
      ⟨Real.cos (e.x / 2) * Real.cos (e.y / 2) * Real.cos (e.z / 2)
          - Real.sin (e.x / 2) * Real.sin (e.y / 2) * Real.sin (e.z / 2),
        Real.sin (e.x / 2) * Real.cos (e.y / 2) * Real.cos (e.z / 2)
          + Real.cos (e.x / 2) * Real.sin (e.y / 2) * Real.sin (e.z / 2),
        Real.cos (e.x / 2) * Real.sin (e.y / 2) * Real.cos (e.z / 2)
          - Real.sin (e.x / 2) * Real.cos (e.y / 2) * Real.sin (e.z / 2),
        Real.cos (e.x / 2) * Real.cos (e.y / 2) * Real.sin (e.z / 2)
          + Real.sin (e.x / 2) * Real.sin (e.y / 2) * Real.cos (e.z / 2)⟩ :=
  rfl

/-- C6: the default constructor yields `(1, 0, 0, 0)`; its Euler conversion
is exactly `(0, 0, 0)`; and left multiplication by it returns the other
operand unchanged in all four components. -/
theorem default_identity :
    (Quaternion.default = ⟨1, 0, 0, 0⟩) ∧
    (Quaternion.ToEulerXYZ Quaternion.default = ⟨0, 0, 0⟩) ∧
    ∀ q : Quaternion, Quaternion.mul Quaternion.default q = q := by
  refine ⟨rfl, toEulerXYZ_real_quat 1, fun q => ?_⟩
  simp only [Quaternion.default, Quaternion.mul]
  ext <;> dsimp <;> ring

/-- C7: the axis-angle constructor produces exactly
`(cos(angle/2), ax sin(angle/2), ay sin(angle/2), az sin(angle/2))`
for every axis and angle, with no validation of the axis. -/
theorem axis_angle_construction (axis : Vector3) (angle : ℝ) :
    Quaternion.ofAxisAngle axis angle =
      ⟨Real.cos (angle / 2), axis.x * Real.sin (angle / 2),
        axis.y * Real.sin (angle / 2), axis.z * Real.sin (angle / 2)⟩ :=
  rfl

/-- C8: scalar division is componentwise with no zero-check, and
`Quaternion(2,4,6,8) / 2 = Quaternion(1,2,3,4)` exactly. -/
theorem div_componentwise :
    (∀ (q : Quaternion) (s : ℝ),
      Quaternion.div q s = ⟨q.w / s, q.x / s, q.y / s, q.z / s⟩) ∧
    Quaternion.div ⟨2, 4, 6, 8⟩ 2 = ⟨1, 2, 3, 4⟩ := by
  refine ⟨fun q s => rfl, ?_⟩
  simp only [Quaternion.div]
  norm_num

/-- C9: no operation other than `FromEulerXYZ` mutates a quaternion: in the
state-passing forms of the methods, `ToEulerXYZ`, `Dot`, `Angle` and `norm`
return the receiver unchanged, and the product and division operators return
their operands unchanged. -/
theorem only_fromEulerXYZ_mutates :
    (∀ self : Quaternion, (Quaternion.ToEulerXYZRun self).2 = self) ∧
    (∀ self q : Quaternion, (Quaternion.DotRun self q).2 = self) ∧
    (∀ self q : Quaternion, (Quaternion.AngleRun self q).2 = self) ∧
    (∀ self : Quaternion, (Quaternion.normRun self).2 = self) ∧
    (∀ q1 q2 : Quaternion, (Quaternion.mulRun q1 q2).2 = (q1, q2)) ∧
    (∀ (q : Quaternion) (s : ℝ), (Quaternion.divRun q s).2 = (q, s)) :=
  ⟨fun _ => rfl, fun _ _ => rfl, fun _ _ => rfl, fun _ => rfl,
    fun _ _ => rfl, fun _ _ => rfl⟩

/-- C10: the Euclidean 4-norm is multiplicative for the Hamilton product, so
the product of unit quaternions is a unit quaternion. -/
theorem norm_mul_eq (p q : Quaternion) :
    (Quaternion.norm (Quaternion.mul p q)
      = Quaternion.norm p * Quaternion.norm q) ∧
    (Quaternion.norm p = 1 → Quaternion.norm q = 1 →
      Quaternion.norm (Quaternion.mul p q) = 1) := by
  have key : Quaternion.norm (Quaternion.mul p q)
      = Quaternion.norm p * Quaternion.norm q := by
    simp only [Quaternion.norm, Quaternion.mul]
    rw [← Real.sqrt_mul
      (by nlinarith [mul_self_nonneg p.w, mul_self_nonneg p.x,
        mul_self_nonneg p.y, mul_self_nonneg p.z])]
    congr 1
    ring
  exact ⟨key, fun h1 h2 => by rw [key, h1, h2, one_mul]⟩

/-- C10 (witness): the product of the unit quaternions `(1,0,0,0)` and
`(0,1,0,0)` has norm `1`. -/
theorem norm_mul_eq_witness :
    Quaternion.norm ⟨1, 0, 0, 0⟩ = 1 ∧ Quaternion.norm ⟨0, 1, 0, 0⟩ = 1 ∧
    Quaternion.norm (Quaternion.mul ⟨1, 0, 0, 0⟩ ⟨0, 1, 0, 0⟩) = 1 := by
  have h1 : Quaternion.norm ⟨1, 0, 0, 0⟩ = 1 := by
    simp only [Quaternion.norm]
    norm_num
  have h2 : Quaternion.norm ⟨0, 1, 0, 0⟩ = 1 := by
    simp only [Quaternion.norm]
    norm_num
  exact ⟨h1, h2, (norm_mul_eq _ _).2 h1 h2⟩

end Mmath
